import Mathlib

/-!
Shallow embedding of the salon-dashboard core (appointment-to-sale
completion workflow and the revenue/service aggregation functions) and
proofs about it.

Conventions of the embedding:
* JS numbers used as currency/duration values are modelled as `Int`.
* Calendar dates (`'YYYY-MM-DD'` strings in the source) are modelled as
  day numbers (`Int`, days since 1970-01-01); a calendar date given by
  year/month/day is converted with `dayNumber`, a Lean transcription of
  the standard civil-from-days algorithm used by date libraries.
* Instants of time are modelled as minutes since the epoch (`Int`),
  together with a timezone offset in minutes for local-time conversions.
* JS objects used as string-keyed accumulators (`acc[k] = (acc[k]||0)+v`)
  are modelled as association lists in insertion order, which is
  exactly the key order `Object.entries` observes.
* Supabase writes are modelled by a `StoreBehavior` that says whether the
  insert/delete calls fail (and with which underlying message), plus a
  trace of the storage operations the workflow actually attempted.
-/

namespace SpaDashboard

/-- Catalog entry (`interface Service` in `app/appointments/page.tsx`). -/
structure Service where
  id : String
  name : String
  price : Int
  duration_minutes : Int
deriving DecidableEq, Repr

/-- A booked appointment (`interface Appointment`): embedded service
snapshots plus derived totals.  `date` is a calendar-day number. -/
structure Appointment where
  id : String
  customer_name : String
  services : List Service
  staff : Option String
  date : Int
  time : String
  total_duration : Int
  total_price : Int
deriving DecidableEq, Repr

/-- A sale row as inserted by the sales form or the completion workflow
(`interface Sale`, without the db-generated `id`).  `date` is a
calendar-day number. -/
structure Sale where
  customer_name : String
  service : String
  amount : Int
  date : Int
  staff : Option String
deriving DecidableEq, Repr

/-- The three supabase collections the pages touch. -/
structure DB where
  appointments : List Appointment
  sales : List Sale
  services : List Service
deriving DecidableEq, Repr

/-- JS `x || null` on an optional string: an empty string is falsy and
collapses to `null`. -/
def orNull : Option String → Option String
  | none => none
  | some s => if s = "" then none else some s

/-- The `salesData` record built by `handleMarkAsDone`
(`app/appointments/page.tsx` lines 279-285): customer name copied,
service = `services.map(s => s.name).join(', ')`, amount = total price,
date = the completion date, staff = `appointment.staff || null`. -/
def buildSaleDraft (a : Appointment) (completionDate : Int) : Sale :=
  { customer_name := a.customer_name
    service := String.intercalate ", " (a.services.map Service.name)
    amount := a.total_price
    date := completionDate
    staff := orNull a.staff }

/-- Storage operations the completion workflow can issue. -/
inductive StoreOp where
  | insertSale (s : Sale)
  | deleteAppointment (id : String)
deriving DecidableEq, Repr

/-- Failure injection for the two storage writes: `some msg` makes the
corresponding supabase call return an error with message `msg`. -/
structure StoreBehavior where
  insertSaleError : Option String
  deleteAppointmentError : Option String
deriving DecidableEq, Repr

/-- Behavior in which both storage writes succeed. -/
def noFailures : StoreBehavior := { insertSaleError := none, deleteAppointmentError := none }

/-- Outcome of a completion attempt: the resulting store contents, the
trace of storage calls attempted, and the surfaced error, if any. -/
structure MarkDoneResult where
  db : DB
  ops : List StoreOp
  error : Option String
deriving DecidableEq, Repr

/-- The completion workflow `handleMarkAsDone`
(`app/appointments/page.tsx` lines 274-322): build the sale draft,
insert it into `sales` (on error abort with
`Failed to create sale: msg` and never touch the appointment), then
delete the appointment row whose id matches (on error surface
`Failed to delete appointment: msg`, leaving the inserted sale behind).
The dashboard variant differs only in how the completion date is
computed and in the error text. -/
def handleMarkAsDone (beh : StoreBehavior) (db : DB) (a : Appointment)
    (completionDate : Int) : MarkDoneResult :=
  let draft := buildSaleDraft a completionDate
  match beh.insertSaleError with
  | some msg =>
      { db := db
        ops := [StoreOp.insertSale draft]
        error := some ("Failed to create sale: " ++ msg) }
  | none =>
      let db1 : DB := { db with sales := db.sales ++ [draft] }
      match beh.deleteAppointmentError with
      | some msg =>
          { db := db1
            ops := [StoreOp.insertSale draft, StoreOp.deleteAppointment a.id]
            error := some ("Failed to delete appointment: " ++ msg) }
      | none =>
          { db := { db1 with
                      appointments := db1.appointments.filter (fun x => x.id != a.id) }
            ops := [StoreOp.insertSale draft, StoreOp.deleteAppointment a.id]
            error := none }

/-- The date part of `new Date().toISOString()` (followed by
`.split('T')[0]`): the UTC calendar day of the instant, the timezone
offset being ignored.  `t` is in minutes since the epoch. -/
def toISOStringDatePart (t : Int) : Int := t.fdiv 1440

/-- The date produced by `dayjs().format('YYYY-MM-DD')`: the calendar
day in the local timezone (offset `tz` minutes east of UTC). -/
def dayjsLocalDatePart (t tz : Int) : Int := (t + tz).fdiv 1440

/-- Modelled from the spec: "completionDate defaults to now (system
clock, local date)" — the local calendar day of the current instant.
This is the spec-side notion the code's default completion dates are
compared against. -/
def localCalendarDay (t tz : Int) : Int := (t + tz).fdiv 1440

/-- A calendar date, as carried by `dayjs()` for the reference instant. -/
structure Date where
  year : Int
  month : Int
  day : Int
deriving DecidableEq, Repr

/-- Day number of the first day of a month (civil-from-days algorithm,
restricted to day 1; day numbers count from 1970-01-01 = 0). -/
def monthStartNumber (year month : Int) : Int :=
  let y := if month ≤ 2 then year - 1 else year
  let m := if month ≤ 2 then month + 9 else month - 3
  let era := y.fdiv 400
  let yoe := y - era * 400
  let doy := (153 * m + 2).fdiv 5
  let doe := yoe * 365 + yoe.fdiv 4 - yoe.fdiv 100 + doy
  era * 146097 + doe - 719468

/-- Day number of a calendar date (days since 1970-01-01). -/
def dayNumber (dt : Date) : Int :=
  monthStartNumber dt.year dt.month + (dt.day - 1)

/-- Day of week of a day number, 0 = Sunday (1970-01-01 was a
Thursday).  dayjs with the default `en` locale starts weeks on Sunday. -/
def weekday (d : Int) : Int := (d + 4).emod 7

/-- Midnight boundary of `dayjs().startOf('week')` as a day number:
the Sunday on or before the reference day. -/
def startOfWeekNum (d : Int) : Int := d - weekday d

/-- Midnight boundary of `dayjs().startOf('month')` as a day number:
day 1 of the reference month. -/
def startOfMonthNum (dt : Date) : Int := dayNumber { dt with day := 1 }

/-- The `reduce((sum, sale) => sum + sale.amount, 0)` pattern used by
every revenue aggregation. -/
def sumAmounts (sales : List Sale) : Int :=
  sales.foldl (fun sum s => sum + s.amount) 0

/-- `totalRevenue` (`app/analytics/page.tsx` line 162, also
`todayRevenue` on the dashboard): sum of `amount` over the fetched
sales. -/
def totalRevenue (sales : List Sale) : Int := sumAmounts sales

/-- The `dailySales` bucket of `fetchData` (`app/analytics/page.tsx`
lines 90-92): sales on/after `startOf('day')` of the reference date,
summed. -/
def dailySales (sales : List Sale) (today : Date) : Int :=
  sumAmounts (sales.filter (fun s => dayNumber today ≤ s.date))

/-- The `weeklySales` bucket of `fetchData` (lines 94-96): sales
on/after `startOf('week')`, summed. -/
def weeklySales (sales : List Sale) (today : Date) : Int :=
  sumAmounts (sales.filter (fun s => startOfWeekNum (dayNumber today) ≤ s.date))

/-- The `monthlySales` bucket of `fetchData` (lines 98-100): sales
on/after `startOf('month')`, summed. -/
def monthlySales (sales : List Sale) (today : Date) : Int :=
  sumAmounts (sales.filter (fun s => startOfMonthNum today ≤ s.date))

/-- The `periodSales` record set by `fetchData` (lines 102-106). -/
def periodSales (sales : List Sale) (today : Date) : Int × Int × Int :=
  (dailySales sales today, weeklySales sales today, monthlySales sales today)

/-- Period tag of the spreadsheet export (`'weekly' | 'monthly'`). -/
inductive Period where
  | weekly
  | monthly
deriving DecidableEq, Repr

/-- The `filteredSales` selection of `exportSalesToExcel`
(`app/analytics/exportSalesToExcel.ts` lines 6-14): filter the given
sales by `isSameOrAfter` the period boundary of the current date. -/
def exportSelectedSales (sales : List Sale) (period : Period) (today : Date) : List Sale :=
  match period with
  | Period.weekly => sales.filter (fun s => startOfWeekNum (dayNumber today) ≤ s.date)
  | Period.monthly => sales.filter (fun s => startOfMonthNum today ≤ s.date)

/-- JS object accumulation `acc[k] = (acc[k] || 0) + v` on a string-keyed
record, modelled as an insertion-ordered association list (the order
`Object.entries` later observes). -/
def bumpAssoc (acc : List (String × Int)) (k : String) (v : Int) : List (String × Int) :=
  if acc.any (fun p => p.1 == k) then
    acc.map (fun p => if p.1 == k then (p.1, p.2 + v) else p)
  else
    acc ++ [(k, v)]

/-- First-match lookup in an association list (JS property read). -/
def lookupVal (acc : List (String × Int)) (k : String) : Option Int :=
  (acc.find? (fun p => p.1 == k)).map Prod.snd

/-- `revenueByService` (`app/analytics/page.tsx` lines 134-139): group
the fetched sales by their `service` string, summing `amount`, skipping
sales whose `service` is falsy (empty). -/
def revenueByService (sales : List Sale) : List (String × Int) :=
  sales.foldl
    (fun acc sale => if sale.service ≠ "" then bumpAssoc acc sale.service sale.amount else acc)
    []

/-- An appointment row as fetched by the dashboard variant in
`src/unnamed/part_001` (`interface Appointment` there): a single
free-text `service` field per appointment, no embedded service list. -/
structure AppointmentRow where
  id : String
  time : String
  customer_name : String
  service : String
  staff : String
  date : String
deriving DecidableEq, Repr

/-- `serviceFrequency` (`src/unnamed/part_001` lines 72-75): occurrence
count of each appointment's `service` string, keys in first-encountered
order. -/
def serviceFrequency (appointments : List AppointmentRow) : List (String × Int) :=
  appointments.foldl (fun acc a => bumpAssoc acc a.service 1) []

/-- Comparison underlying `.sort(([, a], [, b]) => b - a)`: descending
by count; the JS sort is stable, so equal counts keep insertion order. -/
def countDescRel (a b : String × Int) : Prop := b.2 ≤ a.2

instance : DecidableRel countDescRel :=
  fun a b => inferInstanceAs (Decidable (b.2 ≤ a.2))

instance : IsTotal (String × Int) countDescRel :=
  ⟨fun a b => le_total b.2 a.2⟩

instance : IsTrans (String × Int) countDescRel :=
  ⟨fun _ _ _ h1 h2 => le_trans h2 h1⟩

/-- `topServices` (`src/unnamed/part_001` lines 77-79):
`Object.entries(serviceFrequency).sort(([, a], [, b]) => b - a).slice(0, 3)`
— stable descending sort by count, truncated to the top 3. -/
def topServices (appointments : List AppointmentRow) : List (String × Int) :=
  (List.insertionSort countDescRel (serviceFrequency appointments)).take 3

/-- Totals accumulator of `calculateTotals`. -/
structure Totals where
  duration : Int
  price : Int
deriving DecidableEq, Repr

/-- `calculateTotals` (`app/appointments/page.tsx` lines 138-146):
reduce over the selected services accumulating duration and price. -/
def calculateTotals (services : List Service) : Totals :=
  services.foldl
    (fun acc s => { duration := acc.duration + s.duration_minutes, price := acc.price + s.price })
    { duration := 0, price := 0 }

/-- The booking form state (`formData` of the appointments page). -/
structure FormData where
  customer_name : String
  staff : String
  date : Int
  time : String
deriving DecidableEq, Repr

/-- The appointment record written by both branches of `handleSubmit`
(create and edit), minus the db-generated id. -/
structure AppointmentData where
  customer_name : String
  services : List Service
  staff : Option String
  date : Int
  time : String
  total_duration : Int
  total_price : Int
deriving DecidableEq, Repr

/-- `handleSubmit` (`app/appointments/page.tsx` lines 148-214), up to
the storage call: validate the required fields, recompute the totals
from the selected services with `calculateTotals`, snapshot the
selected services, and build the `appointmentData` record that the
insert (create) or update (edit) branch then writes verbatim.  The
`date`/`time` emptiness checks of the source are on the raw form
strings; `date` is already a day number here, so only `customer_name`,
`time` and the service selection can fail validation. -/
def handleSubmit (form : FormData) (selectedServices : List Service) :
    Except String AppointmentData :=
  if form.customer_name = "" ∨ form.time = "" ∨ selectedServices = [] then
    Except.error "Customer name, services, date and time are required"
  else
    let totals := calculateTotals selectedServices
    let servicesData := selectedServices.map
      (fun s => { id := s.id, name := s.name, price := s.price,
                  duration_minutes := s.duration_minutes : Service })
    Except.ok
      { customer_name := form.customer_name
        services := servicesData
        staff := orNull (some form.staff)
        date := form.date
        time := form.time
        total_duration := totals.duration
        total_price := totals.price }

/-- Concrete two-service appointment used to exercise the workflow
(spec scenario 6: Haircut RM30/30min + Manicure RM45/45min booked for
2024-03-01 = day 19783). -/
def exAppt : Appointment :=
  { id := "a1"
    customer_name := "Alice"
    services := [{ id := "s1", name := "Haircut", price := 30, duration_minutes := 30 },
                 { id := "s2", name := "Manicure", price := 45, duration_minutes := 45 }]
    staff := some "Mia"
    date := 19783
    time := "10:00"
    total_duration := 75
    total_price := 75 }

/-- A second appointment, untouched by completing `exAppt`. -/
def exAppt2 : Appointment :=
  { id := "a2"
    customer_name := "Bob"
    services := [{ id := "s1", name := "Haircut", price := 30, duration_minutes := 30 }]
    staff := none
    date := 19784
    time := "11:00"
    total_duration := 30
    total_price := 30 }

/-- A pre-existing sale row. -/
def exSale : Sale :=
  { customer_name := "Carol", service := "Spa", amount := 100, date := 19780, staff := none }

/-- Concrete store contents for the workflow examples. -/
def exDB : DB :=
  { appointments := [exAppt, exAppt2]
    sales := [exSale]
    services := [{ id := "s1", name := "Haircut", price := 30, duration_minutes := 30 }] }

/-- Sale dated 2024-02-26 (day 19779): inside the locale week of
Saturday 2024-03-02 but before that month's start. -/
def c5sale : Sale :=
  { customer_name := "x", service := "Haircut", amount := 10, date := 19779, staff := none }

/-- Reference date Saturday 2024-03-02. -/
def c5today : Date := { year := 2024, month := 3, day := 2 }

/-- Sale dated 2024-03-10 (day 19792), mid-month and mid-week relative
to 2024-03-15. -/
def c5wSale : Sale :=
  { customer_name := "x", service := "Haircut", amount := 10, date := 19792, staff := none }

/-- Reference date Friday 2024-03-15. -/
def c5wToday : Date := { year := 2024, month := 3, day := 15 }

/-- Two dashboard appointment rows with distinct service strings. -/
def c8rows : List AppointmentRow :=
  [{ id := "1", time := "09:00", customer_name := "c1", service := "Haircut",
     staff := "s", date := "2024-03-01" },
   { id := "2", time := "10:00", customer_name := "c2", service := "Spa",
     staff := "s", date := "2024-03-01" }]

/-- The three-sale scenario of spec testable property 7. -/
def c7sales : List Sale :=
  [{ customer_name := "c1", service := "Haircut", amount := 30, date := 0, staff := none },
   { customer_name := "c2", service := "Haircut", amount := 20, date := 0, staff := none },
   { customer_name := "c3", service := "Manicure", amount := 45, date := 0, staff := none }]

end SpaDashboard

namespace SpaDashboard

section HelperLemmas

variable {α : Type}

theorem foldl_add_map_sum (f : α → Int) :
    ∀ (l : List α) (a : Int), l.foldl (fun s x => s + f x) a = a + (l.map f).sum := by
  intro l
  induction l with
  | nil => intro a; simp
  | cons x xs ih =>
      intro a
      simp only [List.foldl_cons, List.map_cons, List.sum_cons, ih]
      ring

theorem sumAmounts_eq (l : List Sale) : sumAmounts l = (l.map Sale.amount).sum := by
  simpa using foldl_add_map_sum Sale.amount l 0

theorem orNull_eq_self (o : Option String) (h : o ≠ some "") : orNull o = o := by
  cases o with
  | none => rfl
  | some s =>
      have hs : s ≠ "" := fun hs => h (by rw [hs])
      simp [orNull, hs]

theorem handleMarkAsDone_noFailures (db : DB) (a : Appointment) (d : Int) :
    handleMarkAsDone noFailures db a d =
      { db := { appointments := db.appointments.filter (fun x => x.id != a.id)
                sales := db.sales ++ [buildSaleDraft a d]
                services := db.services }
        ops := [StoreOp.insertSale (buildSaleDraft a d), StoreOp.deleteAppointment a.id]
        error := none } := rfl

end HelperLemmas

/-- C1: completing an appointment A with completion date D succeeds,
appends to the sales collection exactly one sale whose customer name,
", "-joined service names, amount, date and staff come from A and D as
specified, and removes A from the appointment collection. -/
theorem completion_produces_exact_sale (db : DB) (a : Appointment) (d : Int)
    (hserv : a.services ≠ []) (hprice : 0 < a.total_price) (hstaff : a.staff ≠ some "") :
    (handleMarkAsDone noFailures db a d).error = none ∧
    (handleMarkAsDone noFailures db a d).db.sales =
      db.sales ++
        [{ customer_name := a.customer_name
           service := String.intercalate ", " (a.services.map Service.name)
           amount := a.total_price
           date := d
           staff := a.staff }] ∧
    a ∉ (handleMarkAsDone noFailures db a d).db.appointments := by
  rw [handleMarkAsDone_noFailures]
  refine ⟨rfl, ?_, ?_⟩
  · simp [buildSaleDraft, orNull_eq_self a.staff hstaff]
  · simp [List.mem_filter]

/-- Witness for C1 at the concrete two-service appointment of the spec
scenario: completion on 2024-03-01 yields the RM75 "Haircut, Manicure"
sale and the appointment is gone. -/
theorem completion_produces_exact_sale_witness :
    (handleMarkAsDone noFailures exDB exAppt 19783).error = none ∧
    (handleMarkAsDone noFailures exDB exAppt 19783).db.sales =
      exDB.sales ++
        [{ customer_name := exAppt.customer_name
           service := String.intercalate ", " (exAppt.services.map Service.name)
           amount := exAppt.total_price
           date := 19783
           staff := exAppt.staff }] ∧
    exAppt ∉ (handleMarkAsDone noFailures exDB exAppt 19783).db.appointments :=
  completion_produces_exact_sale exDB exAppt 19783 (by decide) (by decide) (by decide)

/-- C2: when the sale-insert step fails, the workflow aborts: the store
is completely unchanged, the only storage call attempted is the sale
insert (the appointment delete is never issued), and the surfaced error
carries the underlying message. -/
theorem sale_insert_failure_aborts_cleanly (beh : StoreBehavior) (db : DB)
    (a : Appointment) (d : Int) (msg : String) (h : beh.insertSaleError = some msg) :
    handleMarkAsDone beh db a d =
      { db := db
        ops := [StoreOp.insertSale (buildSaleDraft a d)]
        error := some ("Failed to create sale: " ++ msg) } ∧
    StoreOp.deleteAppointment a.id ∉ (handleMarkAsDone beh db a d).ops := by
  unfold handleMarkAsDone
  rw [h]
  exact ⟨rfl, by simp⟩

/-- Witness for C2: a concrete failing insert leaves the concrete store
untouched and never attempts the delete. -/
theorem sale_insert_failure_aborts_cleanly_witness :
    handleMarkAsDone { insertSaleError := some "boom", deleteAppointmentError := none }
        exDB exAppt 19783 =
      { db := exDB
        ops := [StoreOp.insertSale (buildSaleDraft exAppt 19783)]
        error := some ("Failed to create sale: " ++ "boom") } ∧
    StoreOp.deleteAppointment exAppt.id ∉
      (handleMarkAsDone { insertSaleError := some "boom", deleteAppointmentError := none }
        exDB exAppt 19783).ops :=
  sale_insert_failure_aborts_cleanly _ exDB exAppt 19783 "boom" rfl

/-- C6: totalRevenue is the sum of the amounts of the given sales, and
it is additive over list concatenation. -/
theorem totalRevenue_sum_and_additive (X Y : List Sale) :
    totalRevenue X = (X.map Sale.amount).sum ∧
    totalRevenue (X ++ Y) = totalRevenue X + totalRevenue Y := by
  refine ⟨sumAmounts_eq X, ?_⟩
  simp [totalRevenue, sumAmounts_eq]

/-- C10: a fully successful completion surfaces no error, leaves the
services catalog untouched, appends exactly the one new sale after all
pre-existing sales, issues exactly one insert and one delete, and the
remaining appointments are exactly the previous ones other than A
(given that appointment ids are unique and A is present). -/
theorem completion_frame_effect (db : DB) (a : Appointment) (d : Int)
    (hids : (db.appointments.map Appointment.id).Nodup) (ha : a ∈ db.appointments) :
    (handleMarkAsDone noFailures db a d).error = none ∧
    (handleMarkAsDone noFailures db a d).db.services = db.services ∧
    (handleMarkAsDone noFailures db a d).db.sales = db.sales ++ [buildSaleDraft a d] ∧
    (handleMarkAsDone noFailures db a d).ops =
      [StoreOp.insertSale (buildSaleDraft a d), StoreOp.deleteAppointment a.id] ∧
    (∀ x, x ∈ (handleMarkAsDone noFailures db a d).db.appointments ↔
      x ∈ db.appointments ∧ x ≠ a) := by
  rw [handleMarkAsDone_noFailures]
  refine ⟨rfl, rfl, rfl, rfl, ?_⟩
  intro x
  simp only [List.mem_filter, bne_iff_ne, ne_eq]
  constructor
  · rintro ⟨hx, hne⟩
    exact ⟨hx, fun hxa => hne (by rw [hxa])⟩
  · rintro ⟨hx, hne⟩
    refine ⟨hx, fun hid => hne ?_⟩
    exact List.inj_on_of_nodup_map hids hx ha hid

/-- Witness for C10 at the concrete two-appointment store. -/
theorem completion_frame_effect_witness :
    (handleMarkAsDone noFailures exDB exAppt 19783).error = none ∧
    (handleMarkAsDone noFailures exDB exAppt 19783).db.services = exDB.services ∧
    (handleMarkAsDone noFailures exDB exAppt 19783).db.sales =
      exDB.sales ++ [buildSaleDraft exAppt 19783] ∧
    (handleMarkAsDone noFailures exDB exAppt 19783).ops =
      [StoreOp.insertSale (buildSaleDraft exAppt 19783),
       StoreOp.deleteAppointment exAppt.id] ∧
    (∀ x, x ∈ (handleMarkAsDone noFailures exDB exAppt 19783).db.appointments ↔
      x ∈ exDB.appointments ∧ x ≠ exAppt) :=
  completion_frame_effect exDB exAppt 19783 (by decide) (by decide)

/-- C9: for each period tag, the sale set selected by the spreadsheet
export is exactly the set the corresponding periodRevenue bucket of the
analytics page filters, and summing the exported sales reproduces the
bucket value. -/
theorem export_filter_matches_period_buckets (sales : List Sale) (today : Date) :
    sumAmounts (exportSelectedSales sales Period.weekly today) = weeklySales sales today ∧
    sumAmounts (exportSelectedSales sales Period.monthly today) = monthlySales sales today ∧
    (∀ s, s ∈ exportSelectedSales sales Period.weekly today ↔
      s ∈ sales ∧ startOfWeekNum (dayNumber today) ≤ s.date) ∧
    (∀ s, s ∈ exportSelectedSales sales Period.monthly today ↔
      s ∈ sales ∧ startOfMonthNum today ≤ s.date) := by
  refine ⟨rfl, rfl, ?_, ?_⟩ <;>
    · intro s
      simp [exportSelectedSales, List.mem_filter]

/-- Witness for C9 at the concrete sale list and reference date. -/
theorem export_filter_matches_period_buckets_witness :
    sumAmounts (exportSelectedSales [c5sale] Period.weekly c5today) =
      weeklySales [c5sale] c5today ∧
    sumAmounts (exportSelectedSales [c5sale] Period.monthly c5today) =
      monthlySales [c5sale] c5today ∧
    (∀ s, s ∈ exportSelectedSales [c5sale] Period.weekly c5today ↔
      s ∈ [c5sale] ∧ startOfWeekNum (dayNumber c5today) ≤ s.date) ∧
    (∀ s, s ∈ exportSelectedSales [c5sale] Period.monthly c5today ↔
      s ∈ [c5sale] ∧ startOfMonthNum c5today ≤ s.date) :=
  export_filter_matches_period_buckets [c5sale] c5today

/-- C4 counterexample: at the instant 1970-01-01 23:50 UTC (minute
1430) in a UTC+1 locale, the appointments-page completion workflow
stamps the sale with the UTC day 0, while the local calendar date of
that instant is day 1 — the claim that the sale carries the local
calendar date is false for this flow. -/
theorem completion_date_not_local_counterexample :
    ((handleMarkAsDone noFailures exDB exAppt (toISOStringDatePart 1430)).db.sales.map
        Sale.date) ≠
      [exSale.date, localCalendarDay 1430 60] := by
  decide

/-- C4 amended: the dashboard flow stamps the sale with the local
calendar date of the current instant, while the appointments-page flow
stamps it with the UTC calendar date of the current instant
(`new Date().toISOString().split('T')[0]`); the two agree when the
timezone offset is zero, and neither depends on the appointment's
scheduled date. -/
theorem completion_date_sources (t tz : Int) (db : DB) (a : Appointment) :
    dayjsLocalDatePart t tz = localCalendarDay t tz ∧
    (handleMarkAsDone noFailures db a (toISOStringDatePart t)).db.sales =
      db.sales ++ [buildSaleDraft a (t.fdiv 1440)] ∧
    (handleMarkAsDone noFailures db a (dayjsLocalDatePart t tz)).db.sales =
      db.sales ++ [buildSaleDraft a (localCalendarDay t tz)] ∧
    (tz = 0 → toISOStringDatePart t = localCalendarDay t tz) := by
  refine ⟨rfl, rfl, rfl, ?_⟩
  intro h
  simp [toISOStringDatePart, localCalendarDay, h]

/-- Witness for C4's amended statement at a concrete instant. -/
theorem completion_date_sources_witness :
    dayjsLocalDatePart 1430 0 = localCalendarDay 1430 0 ∧
    (handleMarkAsDone noFailures exDB exAppt (toISOStringDatePart 1430)).db.sales =
      exDB.sales ++ [buildSaleDraft exAppt (Int.fdiv 1430 1440)] ∧
    (handleMarkAsDone noFailures exDB exAppt (dayjsLocalDatePart 1430 0)).db.sales =
      exDB.sales ++ [buildSaleDraft exAppt (localCalendarDay 1430 0)] ∧
    ((0 : Int) = 0 → toISOStringDatePart 1430 = localCalendarDay 1430 0) :=
  completion_date_sources 1430 0 exDB exAppt

theorem calculateTotals_foldl (l : List Service) :
    ∀ acc : Totals,
      l.foldl
        (fun acc s =>
          { duration := acc.duration + s.duration_minutes, price := acc.price + s.price })
        acc =
      { duration := acc.duration + (l.map Service.duration_minutes).sum
        price := acc.price + (l.map Service.price).sum } := by
  induction l with
  | nil => intro acc; simp
  | cons s ss ih =>
      intro acc
      simp only [List.foldl_cons, List.map_cons, List.sum_cons, ih]
      congr 1 <;> ring

theorem calculateTotals_eq (l : List Service) :
    calculateTotals l =
      { duration := (l.map Service.duration_minutes).sum
        price := (l.map Service.price).sum } := by
  simpa [calculateTotals] using calculateTotals_foldl l { duration := 0, price := 0 }

/-- C3: every appointment record produced by a successful submit
(create or edit, both write this record verbatim) has total_price equal
to the sum of the prices of its embedded services and total_duration
equal to the sum of their durations. -/
theorem submitted_totals_match_services (form : FormData) (sel : List Service)
    (a : AppointmentData) (h : handleSubmit form sel = Except.ok a) :
    a.total_price = (a.services.map Service.price).sum ∧
    a.total_duration = (a.services.map Service.duration_minutes).sum := by
  unfold handleSubmit at h
  split at h
  · exact absurd h (by simp)
  · rw [Except.ok.injEq] at h
    subst h
    simp [calculateTotals_eq, List.map_map, Function.comp]

/-- Witness for C3: the Haircut+Manicure booking yields totals 75/75
matching the sums over its embedded services. -/
theorem submitted_totals_match_services_witness :
    (({ customer_name := "Alice"
        services := exAppt.services
        staff := none
        date := 19783
        time := "10:00"
        total_duration := 75
        total_price := 75 } : AppointmentData).total_price =
      ((({ customer_name := "Alice"
           services := exAppt.services
           staff := none
           date := 19783
           time := "10:00"
           total_duration := 75
           total_price := 75 } : AppointmentData)).services.map Service.price).sum) ∧
    (({ customer_name := "Alice"
        services := exAppt.services
        staff := none
        date := 19783
        time := "10:00"
        total_duration := 75
        total_price := 75 } : AppointmentData).total_duration =
      ((({ customer_name := "Alice"
           services := exAppt.services
           staff := none
           date := 19783
           time := "10:00"
           total_duration := 75
           total_price := 75 } : AppointmentData)).services.map Service.duration_minutes).sum) :=
  submitted_totals_match_services
    { customer_name := "Alice", staff := "", date := 19783, time := "10:00" }
    exAppt.services _ (by rfl)

theorem sumAmounts_filter_boundary_mono (b1 b2 : Int) (h : b2 ≤ b1) :
    ∀ sales : List Sale, (∀ s ∈ sales, 0 ≤ s.amount) →
      sumAmounts (sales.filter fun s => b1 ≤ s.date) ≤
        sumAmounts (sales.filter fun s => b2 ≤ s.date) := by
  intro sales
  induction sales with
  | nil => intro _; simp
  | cons s ss ih =>
      intro hpos
      have hs : 0 ≤ s.amount := hpos s (List.mem_cons_self s ss)
      have hss : ∀ x ∈ ss, 0 ≤ x.amount := fun x hx => hpos x (List.mem_cons_of_mem s hx)
      by_cases h1 : b1 ≤ s.date
      · have h2 : b2 ≤ s.date := le_trans h h1
        have := ih hss
        simp only [sumAmounts_eq] at this ⊢
        simp only [List.filter_cons, h1, h2, decide_True, if_true, List.map_cons,
          List.sum_cons, decide_eq_true_eq, if_pos]
        omega
      · by_cases h2 : b2 ≤ s.date
        · have := ih hss
          simp only [sumAmounts_eq] at this ⊢
          simp only [List.filter_cons, decide_eq_true_eq, h1, h2, if_true, if_false,
            List.map_cons, List.sum_cons]
          omega
        · simp only [List.filter_cons, decide_eq_true_eq, h1, h2, if_false]
          exact ih hss

theorem weekday_nonneg (d : Int) : 0 ≤ weekday d :=
  Int.emod_nonneg (d + 4) (by norm_num)

theorem startOfWeekNum_le (d : Int) : startOfWeekNum d ≤ d :=
  sub_le_self d (weekday_nonneg d)

theorem startOfMonthNum_le (dt : Date) (h : 1 ≤ dt.day) :
    startOfMonthNum dt ≤ dayNumber dt := by
  simp only [startOfMonthNum, dayNumber]
  omega

/-- C5 counterexample: with reference date Saturday 2024-03-02 (whose
locale week starts Sunday 2024-02-25, before the month start 2024-03-01)
and a single RM10 sale dated 2024-02-26, the weekly bucket is 10 while
the monthly bucket is 0 — the claimed daily ≤ weekly ≤ monthly chain
fails even though all amounts are non-negative. -/
theorem period_buckets_monotone_counterexample :
    ¬ (dailySales [c5sale] c5today ≤ weeklySales [c5sale] c5today ∧
       weeklySales [c5sale] c5today ≤ monthlySales [c5sale] c5today) := by
  decide

/-- C5 amended: with non-negative amounts and a valid reference day,
daily ≤ weekly and daily ≤ monthly always hold; weekly ≤ monthly holds
only when the start-of-week boundary is on/after the start-of-month
boundary (it fails when the locale week of the reference date begins in
the previous month). -/
theorem period_buckets_monotone_amended (sales : List Sale) (today : Date)
    (hpos : ∀ s ∈ sales, 0 ≤ s.amount) (hday : 1 ≤ today.day) :
    dailySales sales today ≤ weeklySales sales today ∧
    dailySales sales today ≤ monthlySales sales today ∧
    (startOfMonthNum today ≤ startOfWeekNum (dayNumber today) →
      weeklySales sales today ≤ monthlySales sales today) := by
  refine ⟨?_, ?_, ?_⟩
  · exact sumAmounts_filter_boundary_mono (dayNumber today)
      (startOfWeekNum (dayNumber today)) (startOfWeekNum_le (dayNumber today)) sales hpos
  · exact sumAmounts_filter_boundary_mono (dayNumber today) (startOfMonthNum today)
      (startOfMonthNum_le today hday) sales hpos
  · intro hwm
    exact sumAmounts_filter_boundary_mono (startOfWeekNum (dayNumber today))
      (startOfMonthNum today) hwm sales hpos

/-- Witness for C5's amended statement: reference date 2024-03-15, one
RM10 sale dated 2024-03-10. -/
theorem period_buckets_monotone_amended_witness :
    dailySales [c5wSale] c5wToday ≤ weeklySales [c5wSale] c5wToday ∧
    dailySales [c5wSale] c5wToday ≤ monthlySales [c5wSale] c5wToday ∧
    (startOfMonthNum c5wToday ≤ startOfWeekNum (dayNumber c5wToday) →
      weeklySales [c5wSale] c5wToday ≤ monthlySales [c5wSale] c5wToday) :=
  period_buckets_monotone_amended [c5wSale] c5wToday (by decide) (by decide)

section AssocLemmas

theorem find?_bumped_self (k : String) (v : Int) :
    ∀ acc : List (String × Int),
      (acc.map (fun p => if p.1 == k then (p.1, p.2 + v) else p)).find?
          (fun p => p.1 == k) =
        (acc.find? (fun p => p.1 == k)).map (fun p => (p.1, p.2 + v)) := by
  intro acc
  induction acc with
  | nil => rfl
  | cons q qs ih =>
      simp only [List.map_cons]
      by_cases hq : q.1 = k
      · have h1 : ((if q.1 == k then (q.1, q.2 + v) else q).1 == k) = true := by simp [hq]
        have h2 : (q.1 == k) = true := by simp [hq]
        rw [@List.find?_cons_of_pos _ (fun p : String × Int => p.1 == k) _ _ h1,
          @List.find?_cons_of_pos _ (fun p : String × Int => p.1 == k) _ _ h2]
        simp [hq]
      · have h1 : ¬ ((if q.1 == k then (q.1, q.2 + v) else q).1 == k) = true := by simp [hq]
        have h2 : ¬ ((q.1 == k) = true) := by simp [hq]
        rw [@List.find?_cons_of_neg _ (fun p : String × Int => p.1 == k) _ _ h1,
          @List.find?_cons_of_neg _ (fun p : String × Int => p.1 == k) _ _ h2, ih]

theorem find?_bumped_other (k k' : String) (v : Int) (hne : k' ≠ k) :
    ∀ acc : List (String × Int),
      (acc.map (fun p => if p.1 == k then (p.1, p.2 + v) else p)).find?
          (fun p => p.1 == k') =
        acc.find? (fun p => p.1 == k') := by
  intro acc
  induction acc with
  | nil => rfl
  | cons q qs ih =>
      simp only [List.map_cons]
      have hfst : (if q.1 == k then (q.1, q.2 + v) else q).1 = q.1 := by
        split <;> rfl
      by_cases hq : q.1 = k'
      · have h1 : ((if q.1 == k then (q.1, q.2 + v) else q).1 == k') = true := by
          rw [hfst]; simp [hq]
        have h2 : (q.1 == k') = true := by simp [hq]
        rw [@List.find?_cons_of_pos _ (fun p : String × Int => p.1 == k') _ _ h1,
          @List.find?_cons_of_pos _ (fun p : String × Int => p.1 == k') _ _ h2]
        have hqk : ¬ q.1 = k := fun h => hne (by rw [← hq, h])
        simp [hqk]
      · have h1 : ¬ ((if q.1 == k then (q.1, q.2 + v) else q).1 == k') = true := by
          rw [hfst]; simp [hq]
        have h2 : ¬ ((q.1 == k') = true) := by simp [hq]
        rw [@List.find?_cons_of_neg _ (fun p : String × Int => p.1 == k') _ _ h1,
          @List.find?_cons_of_neg _ (fun p : String × Int => p.1 == k') _ _ h2, ih]

theorem any_key_iff_mem (acc : List (String × Int)) (k : String) :
    acc.any (fun p => p.1 == k) = true ↔ k ∈ acc.map Prod.fst := by
  simp only [List.any_eq_true, List.mem_map, beq_iff_eq]

theorem lookupVal_bumpAssoc_self (acc : List (String × Int)) (k : String) (v : Int) :
    lookupVal (bumpAssoc acc k v) k = some ((lookupVal acc k).getD 0 + v) := by
  unfold bumpAssoc
  by_cases h : acc.any (fun p => p.1 == k) = true
  · rw [if_pos h]
    unfold lookupVal
    rw [find?_bumped_self]
    obtain ⟨x, hx, hpx⟩ := List.any_eq_true.mp h
    obtain ⟨q, hq⟩ := Option.isSome_iff_exists.mp
      ((@List.find?_isSome _ acc (fun p => p.1 == k)).mpr ⟨x, hx, hpx⟩)
    rw [hq]
    simp
  · rw [if_neg h]
    have hfalse : acc.any (fun p => p.1 == k) = false := by
      cases hb : acc.any (fun p => p.1 == k)
      · rfl
      · exact absurd hb h
    have hnone : acc.find? (fun p => p.1 == k) = none :=
      List.find?_eq_none.mpr (List.any_eq_false.mp hfalse)
    unfold lookupVal
    rw [List.find?_append, hnone]
    simp

theorem lookupVal_bumpAssoc_other (acc : List (String × Int)) (k : String) (v : Int)
    (k' : String) (hne : k' ≠ k) :
    lookupVal (bumpAssoc acc k v) k' = lookupVal acc k' := by
  unfold bumpAssoc
  by_cases h : acc.any (fun p => p.1 == k) = true
  · rw [if_pos h]
    unfold lookupVal
    rw [find?_bumped_other k k' v hne]
  · rw [if_neg h]
    unfold lookupVal
    rw [List.find?_append]
    have hsingle : List.find? (fun p => p.1 == k') [(k, v)] = none := by
      simp [Ne.symm hne]
    rw [hsingle]
    cases acc.find? (fun p => p.1 == k') <;> rfl

theorem lookupVal_foldBump {α : Type} (key : α → String) (val : α → Int) (k : String) :
    ∀ (l : List α) (acc : List (String × Int)),
      lookupVal (l.foldl (fun b x => bumpAssoc b (key x) (val x)) acc) k =
        (match lookupVal acc k with
         | some v => some (v + ((l.filter fun x => key x == k).map val).sum)
         | none =>
            if l.any (fun x => key x == k) then
              some (((l.filter fun x => key x == k).map val).sum)
            else none) := by
  intro l
  induction l with
  | nil =>
      intro acc
      cases h : lookupVal acc k <;> simp [h]
  | cons x xs ih =>
      intro acc
      simp only [List.foldl_cons]
      rw [ih]
      by_cases hx : key x = k
      · have hb : lookupVal (bumpAssoc acc (key x) (val x)) k =
            some ((lookupVal acc k).getD 0 + val x) := by
          rw [hx]
          exact lookupVal_bumpAssoc_self acc k (val x)
        rw [hb]
        have hpred : (key x == k) = true := by simp [hx]
        rw [List.filter_cons]
        simp only [hpred, if_true, List.map_cons, List.sum_cons, List.any_cons,
          Bool.true_or]
        cases h : lookupVal acc k with
        | none => simp [h]
        | some v => simp [h]; ring_nf
      · have hb : lookupVal (bumpAssoc acc (key x) (val x)) k = lookupVal acc k :=
          lookupVal_bumpAssoc_other acc (key x) (val x) k (fun hkk => hx hkk.symm)
        rw [hb]
        have hpred : (key x == k) = false := by simp [hx]
        rw [List.filter_cons]
        simp only [hpred, Bool.false_eq_true, if_false, List.any_cons, Bool.false_or]

theorem foldl_if_guard {α β : Type} (p : α → Prop) [DecidablePred p] (f : β → α → β) :
    ∀ (l : List α) (b : β),
      l.foldl (fun acc x => if p x then f acc x else acc) b =
        (l.filter fun x => decide (p x)).foldl f b := by
  intro l
  induction l with
  | nil => intro b; rfl
  | cons x xs ih =>
      intro b
      by_cases hx : p x <;> simp [List.filter_cons, hx, ih]

theorem map_fst_bumpAssoc (acc : List (String × Int)) (k : String) (v : Int) :
    (bumpAssoc acc k v).map Prod.fst =
      if acc.any (fun p => p.1 == k) then acc.map Prod.fst
      else acc.map Prod.fst ++ [k] := by
  unfold bumpAssoc
  by_cases h : acc.any (fun p => p.1 == k) = true
  · rw [if_pos h, if_pos h, List.map_map]
    apply List.map_congr_left
    intro p _
    by_cases hp : p.1 = k <;> simp [hp]
  · rw [if_neg h, if_neg h, List.map_append]
    rfl

theorem nodup_keys_foldBump {α : Type} (key : α → String) (val : α → Int) :
    ∀ (l : List α) (acc : List (String × Int)), (acc.map Prod.fst).Nodup →
      ((l.foldl (fun b x => bumpAssoc b (key x) (val x)) acc).map Prod.fst).Nodup := by
  intro l
  induction l with
  | nil => intro acc h; exact h
  | cons x xs ih =>
      intro acc h
      simp only [List.foldl_cons]
      apply ih
      rw [map_fst_bumpAssoc]
      by_cases hc : acc.any (fun p => p.1 == (key x)) = true
      · rw [if_pos hc]; exact h
      · rw [if_neg hc]
        rw [List.nodup_append]
        refine ⟨h, List.nodup_singleton _, ?_⟩
        intro y hy hmem
        rw [List.mem_singleton] at hmem
        subst hmem
        exact hc ((any_key_iff_mem acc (key x)).mpr hy)

theorem mem_keys_foldBump {α : Type} (key : α → String) (val : α → Int) :
    ∀ (l : List α) (acc : List (String × Int)) (z : String),
      z ∈ (l.foldl (fun b x => bumpAssoc b (key x) (val x)) acc).map Prod.fst ↔
        z ∈ acc.map Prod.fst ∨ z ∈ l.map key := by
  intro l
  induction l with
  | nil => intro acc z; simp
  | cons x xs ih =>
      intro acc z
      simp only [List.foldl_cons, List.map_cons, List.mem_cons]
      rw [ih]
      rw [map_fst_bumpAssoc]
      by_cases hc : acc.any (fun p => p.1 == (key x)) = true
      · rw [if_pos hc]
        have hkmem : key x ∈ acc.map Prod.fst := (any_key_iff_mem acc (key x)).mp hc
        constructor
        · rintro (hz | hz)
          · exact Or.inl hz
          · exact Or.inr (Or.inr hz)
        · rintro (hz | hz | hz)
          · exact Or.inl hz
          · subst hz; exact Or.inl hkmem
          · exact Or.inr hz
      · rw [if_neg hc]
        simp only [List.mem_append, List.mem_singleton]
        tauto

theorem find?_key_of_mem_nodup (p : String × Int) :
    ∀ l : List (String × Int), (l.map Prod.fst).Nodup → p ∈ l →
      l.find? (fun q => q.1 == p.1) = some p := by
  intro l
  induction l with
  | nil => intro _ hp; exact absurd hp (List.not_mem_nil p)
  | cons q qs ih =>
      intro hn hp
      rw [List.map_cons, List.nodup_cons] at hn
      rcases List.mem_cons.mp hp with hq | hq
      · subst hq
        exact List.find?_cons_of_pos qs (by simp)
      · have hne : ¬ (q.1 == p.1) = true := by
          simp only [beq_iff_eq]
          intro hfst
          exact hn.1 (hfst ▸ List.mem_map_of_mem Prod.fst hq)
        rw [List.find?_cons_of_neg qs hne]
        exact ih hn.2 hq

theorem sum_map_one {α : Type} : ∀ l : List α, (l.map fun _ => (1 : Int)).sum = l.length := by
  intro l
  induction l with
  | nil => simp
  | cons x xs ih => simp [ih]; ring

theorem lookupVal_foldBump_nil {α : Type} (key : α → String) (val : α → Int)
    (k : String) (l : List α) :
    lookupVal (l.foldl (fun b x => bumpAssoc b (key x) (val x)) []) k =
      (if l.any (fun x => key x == k) then
        some (((l.filter fun x => key x == k).map val).sum)
       else none) := by
  rw [lookupVal_foldBump key val k l []]
  rfl

end AssocLemmas

theorem revenueByService_eq_foldBump (sales : List Sale) :
    revenueByService sales =
      (sales.filter fun s => decide (s.service ≠ "")).foldl
        (fun acc s => bumpAssoc acc s.service s.amount) [] := by
  unfold revenueByService
  exact foldl_if_guard (fun s : Sale => s.service ≠ "")
    (fun acc s => bumpAssoc acc s.service s.amount) sales []

theorem filter_service_guard (k : String) (hk : k ≠ "") (sales : List Sale) :
    (sales.filter fun s => decide (s.service ≠ "")).filter (fun s => s.service == k) =
      sales.filter (fun s => s.service == k) := by
  rw [List.filter_filter]
  apply List.filter_congr
  intro s _
  by_cases h : s.service = k
  · simp [h, hk]
  · simp [h]

theorem any_service_guard (k : String) (hk : k ≠ "") (sales : List Sale) :
    (sales.filter fun s => decide (s.service ≠ "")).any (fun s => s.service == k) =
      sales.any (fun s => s.service == k) := by
  by_cases hb : sales.any (fun s => s.service == k) = true
  · rw [hb]
    obtain ⟨x, hx, hpx⟩ := List.any_eq_true.mp hb
    apply List.any_eq_true.mpr
    refine ⟨x, ?_, hpx⟩
    rw [List.mem_filter]
    refine ⟨hx, ?_⟩
    have hxk : x.service = k := by simpa using hpx
    simp [hxk, hk]
  · have hb' : sales.any (fun s => s.service == k) = false := by
      cases hbb : sales.any (fun s => s.service == k)
      · rfl
      · exact absurd hbb hb
    rw [hb']
    apply List.any_eq_false.mpr
    intro x hx
    exact List.any_eq_false.mp hb' x (List.mem_filter.mp hx).1

/-- C7: revenueByService groups sales by exact match on their service
string and sums amounts per key (lookup of any non-empty label yields
the sum over exactly the sales carrying that label, or nothing if the
label never occurs), the empty label never gets a bucket, and the
three-sale spec scenario yields Haircut 50, Manicure 45. -/
theorem revenueByService_groups_by_exact_label (sales : List Sale) (k : String)
    (hk : k ≠ "") :
    lookupVal (revenueByService sales) k =
      (if sales.any (fun s => s.service == k) then
        some (((sales.filter fun s => s.service == k).map Sale.amount).sum)
       else none) ∧
    lookupVal (revenueByService sales) "" = none ∧
    revenueByService c7sales = [("Haircut", 50), ("Manicure", 45)] := by
  refine ⟨?_, ?_, by decide⟩
  · rw [revenueByService_eq_foldBump]
    have h := lookupVal_foldBump_nil Sale.service Sale.amount k
      (sales.filter fun s => decide (s.service ≠ ""))
    rw [h, any_service_guard k hk sales, filter_service_guard k hk sales]
  · rw [revenueByService_eq_foldBump]
    have h := lookupVal_foldBump_nil Sale.service Sale.amount ""
      (sales.filter fun s => decide (s.service ≠ ""))
    rw [h]
    have hfalse : (sales.filter fun s => decide (s.service ≠ "")).any
        (fun s => s.service == "") = false := by
      rw [List.any_eq_false]
      intro x hx
      rw [List.mem_filter] at hx
      simp only [decide_eq_true_eq] at hx
      simp [hx.2]
    rw [hfalse]
    rfl

/-- Witness for C7 at the label "Haircut" of the three-sale scenario. -/
theorem revenueByService_groups_by_exact_label_witness :
    lookupVal (revenueByService c7sales) "Haircut" =
      (if c7sales.any (fun s => s.service == "Haircut") then
        some (((c7sales.filter fun s => s.service == "Haircut").map Sale.amount).sum)
       else none) ∧
    lookupVal (revenueByService c7sales) "" = none ∧
    revenueByService c7sales = [("Haircut", 50), ("Manicure", 45)] :=
  revenueByService_groups_by_exact_label c7sales "Haircut" (by decide)

/-- C8 counterexample: the cited topServices truncates to the hard-coded
3, not to a caller-chosen n; instantiating the claimed length formula
min(n, distinct service count) at n = 1 on two appointments with two
distinct service strings gives 1, while the code returns both entries. -/
theorem topServices_claim_counterexample :
    ¬ ((topServices c8rows).length =
        min 1 ((c8rows.map AppointmentRow.service).toFinset.card)) := by
  decide

/-- C8 amended: topServices counts occurrences of each appointment's
single service string (this dashboard variant has no embedded service
list), sorts descending by count with the stable JS sort (ties keep
first-encountered order, as the two-row example shows), and truncates
to the hard-coded top 3, so its length is min(3, distinct service
count); every returned pair carries the exact occurrence count of its
label. -/
theorem topServices_amended (appointments : List AppointmentRow) :
    (topServices appointments).length =
      min 3 ((appointments.map AppointmentRow.service).toFinset.card) ∧
    List.Sorted countDescRel (topServices appointments) ∧
    (∀ p ∈ topServices appointments,
      p.2 = ((appointments.filter fun a => a.service == p.1).length : Int)) ∧
    topServices c8rows = [("Haircut", 1), ("Spa", 1)] := by
  have hnodup : ((serviceFrequency appointments).map Prod.fst).Nodup :=
    nodup_keys_foldBump AppointmentRow.service (fun _ => (1 : Int)) appointments []
      (by simp)
  refine ⟨?_, ?_, ?_, by decide⟩
  · have hlen : (topServices appointments).length =
        min 3 (serviceFrequency appointments).length := by
      unfold topServices
      rw [List.length_take, List.length_insertionSort]
    have hmem : ∀ z, z ∈ (serviceFrequency appointments).map Prod.fst ↔
        z ∈ appointments.map AppointmentRow.service := by
      intro z
      have := mem_keys_foldBump AppointmentRow.service (fun _ => (1 : Int))
        appointments [] z
      simpa using this
    have hfin : ((serviceFrequency appointments).map Prod.fst).toFinset =
        (appointments.map AppointmentRow.service).toFinset := by
      apply Finset.ext
      intro z
      rw [List.mem_toFinset, List.mem_toFinset]
      exact hmem z
    have hcard : (serviceFrequency appointments).length =
        (appointments.map AppointmentRow.service).toFinset.card := by
      rw [← hfin, List.toFinset_card_of_nodup hnodup, List.length_map]
    rw [hlen, hcard]
  · exact List.Pairwise.sublist (List.take_sublist _ _)
      (List.sorted_insertionSort countDescRel _)
  · intro p hp
    have hp1 : p ∈ List.insertionSort countDescRel (serviceFrequency appointments) :=
      (List.take_sublist _ _).subset hp
    have hp2 : p ∈ serviceFrequency appointments :=
      (List.perm_insertionSort countDescRel _).mem_iff.mp hp1
    have hfind : (serviceFrequency appointments).find? (fun q => q.1 == p.1) = some p :=
      find?_key_of_mem_nodup p _ hnodup hp2
    have hlook : lookupVal (serviceFrequency appointments) p.1 = some p.2 := by
      unfold lookupVal
      rw [hfind]
      rfl
    have h2 : lookupVal (serviceFrequency appointments) p.1 =
        (if appointments.any (fun a => a.service == p.1) then
          some (((appointments.filter fun a => a.service == p.1).map
            fun _ => (1 : Int)).sum)
         else none) :=
      lookupVal_foldBump_nil AppointmentRow.service (fun _ => (1 : Int)) p.1 appointments
    rw [hlook] at h2
    by_cases hany : appointments.any (fun a => a.service == p.1) = true
    · rw [if_pos hany] at h2
      have hval := Option.some.inj h2
      rw [hval, sum_map_one]
    · rw [if_neg hany] at h2
      exact absurd h2 (by simp)

/-- Witness for C8's amended statement at the two-row example. -/
theorem topServices_amended_witness :
    (topServices c8rows).length =
      min 3 ((c8rows.map AppointmentRow.service).toFinset.card) ∧
    List.Sorted countDescRel (topServices c8rows) ∧
    (∀ p ∈ topServices c8rows,
      p.2 = ((c8rows.filter fun a => a.service == p.1).length : Int)) ∧
    topServices c8rows = [("Haircut", 1), ("Spa", 1)] :=
  topServices_amended c8rows

end SpaDashboard
